import Mathlib

/-!
Verification of the MCP server's command-execution and output-normalization
engine (`mcp-server.py`).

Text is modelled as `List Char`.  Wall-clock instants are modelled in
hundredths of a second (`Int`), so that the two-decimal-place rendering of
`execution_time` in the report is exact; Python's whitespace set for
`str.strip()` / `str.split()` is modelled by its ASCII part, which covers
every character the source and the claims exercise.  Subprocess results are
passed in explicitly (`ProcResult`, `GhRunsResult`, the `Option Int` probes),
and each top-level operation also reports which argument vectors it launched,
so that the short-circuit claims are statable.
-/

/-- Shorthand: the character list underlying a string literal. -/
def chars (s : String) : List Char := s.data

/-- Python whitespace for `str.strip()` / `str.split()` (ASCII part):
space, tab, newline, carriage return, vertical tab, form feed. -/
def isPyWs (c : Char) : Bool :=
  c == ' ' || c == '\t' || c == '\n' || c == '\r' || c == '\x0b' || c == '\x0c'

/-- Python `s.strip()`: drop leading and trailing whitespace. -/
def pyStrip (l : List Char) : List Char :=
  ((l.dropWhile isPyWs).reverse.dropWhile isPyWs).reverse

/-- Python `s.split('\n')`: split on each newline, keeping empty segments. -/
def splitLines : List Char → List (List Char)
  | [] => [[]]
  | c :: rest =>
      let r := splitLines rest
      if c = '\n' then [] :: r
      else (c :: r.headI) :: r.tail

/-- Python `sep.join(xs)`. -/
def joinWith (sep : List Char) : List (List Char) → List Char
  | [] => []
  | [x] => x
  | x :: y :: ys => x ++ sep ++ joinWith sep (y :: ys)

/-- Python `'\n'.join(xs)`. -/
def joinLines : List (List Char) → List Char :=
  joinWith ['\n']

/-- `b` is an initial segment of the second argument. -/
def isPrefixB : List Char → List Char → Bool
  | [], _ => true
  | _ :: _, [] => false
  | a :: as, b :: bs => a == b && isPrefixB as bs

/-- Python `needle in hay` (substring containment). -/
def containsSub (needle : List Char) : List Char → Bool
  | [] => isPrefixB needle []
  | c :: rest => isPrefixB needle (c :: rest) || containsSub needle rest

/-- Python `s.lower()` (ASCII). -/
def toLowerL (l : List Char) : List Char := l.map Char.toLower

/-- Severity tag of one classified output line (closed set). -/
inductive Severity
  | success
  | warning
  | error
  | plain
deriving DecidableEq, Repr

/-- The per-line keyword classifier of `_format_command_output`:
success words first, then `warning`, then `error`, otherwise plain. -/
def classifyLine (line : List Char) : Severity :=
  if [chars "success", chars "passed", chars "complete"].any
      (fun w => containsSub w (toLowerL line)) then Severity.success
  else if containsSub (chars "warning") (toLowerL line) then Severity.warning
  else if containsSub (chars "error") (toLowerL line) then Severity.error
  else Severity.plain

/-- The icon text that `_format_command_output` inserts for each tag
(`"✅ "`, `"🟡 "`, `"🔴 "`, nothing for plain lines). -/
def insertedIcon : Severity → List Char
  | Severity.success => chars "✅ "
  | Severity.warning => chars "🟡 "
  | Severity.error => chars "🔴 "
  | Severity.plain => []

/-- One rendered output line: icon prefix (when any) followed by the line. -/
def renderLine (t : Severity) (l : List Char) : List Char :=
  insertedIcon t ++ l

/-- Classified stdout: strip the text, split on newlines, tag each line. -/
def classifyText (text : List Char) : List (Severity × List Char) :=
  (splitLines (pyStrip text)).map (fun l => (classifyLine l, l))

/-- `_format_command_output`: strip, split, tag and render every line. -/
def formatCommandOutput (output : List Char) : List Char :=
  joinLines ((classifyText output).map (fun p => renderLine p.1 p.2))

/-- Rendered classified output with the icon each tag inserted removed again
from the front of its line (the reclassification input of the idempotence
property). -/
def stripInsertedIcons (tagged : List (Severity × List Char)) : List Char :=
  joinLines (tagged.map (fun p => (renderLine p.1 p.2).drop (insertedIcon p.1).length))

/-- `_format_error_output`: strip, split, keep only lines that are non-blank
after stripping, each prefixed with `"🔥 "`. -/
def formatErrorOutput (output : List Char) : List Char :=
  joinLines ((splitLines (pyStrip output)).filterMap
    (fun l => if (pyStrip l).isEmpty then none else some (chars "🔥 " ++ l)))

/-- Decimal digits of a natural number (fuel-based so it reduces in the
kernel); mirrors Python `str(n)` for `n : Nat`. -/
def natCharsAux : Nat → Nat → List Char
  | 0, _ => []
  | fuel + 1, n =>
      if n < 10 then [Nat.digitChar n]
      else natCharsAux fuel (n / 10) ++ [Nat.digitChar (n % 10)]

/-- Python `str(n)` for a natural number. -/
def natChars (n : Nat) : List Char := natCharsAux (n + 1) n

/-- Python `str(i)` for an integer. -/
def intChars : Int → List Char
  | Int.ofNat n => natChars n
  | Int.negSucc n => '-' :: natChars (n + 1)

/-- Render `n` hundredths of a second as Python's `f"{x:.2f}"` does for the
corresponding number of seconds. -/
def fmt2dpNat (n : Nat) : List Char :=
  natChars (n / 100) ++ '.' :: [Nat.digitChar (n / 10 % 10), Nat.digitChar (n % 10)]

/-- Signed variant of `fmt2dpNat`. -/
def fmt2dp (t : Int) : List Char :=
  if t < 0 then '-' :: fmt2dpNat t.natAbs else fmt2dpNat t.toNat

/-- Python `s.split()` — split on whitespace runs, dropping empty pieces. -/
def splitWordsAux : List Char → List Char → List (List Char)
  | [], acc => if acc.isEmpty then [] else [acc.reverse]
  | c :: rest, acc =>
      if isPyWs c then
        if acc.isEmpty then splitWordsAux rest []
        else acc.reverse :: splitWordsAux rest []
      else splitWordsAux rest (c :: acc)

/-- Python `s.split()`. -/
def splitWords (l : List Char) : List (List Char) := splitWordsAux l []

/-- The argument vector `_run_docker_command` builds: `docker-compose` plus
the sub-command's words for compose commands, otherwise
`docker-compose run --rm <command>`. -/
def buildCmd (command : List Char) (composeCommand : Bool) : List (List Char) :=
  if composeCommand then chars "docker-compose" :: splitWords command
  else [chars "docker-compose", chars "run", chars "--rm", command]

/-- Result of awaiting the subprocess with `asyncio.wait_for`. -/
inductive ProcResult
  | timeout
  | completed (returncode : Int) (stdout stderr : List Char)

/-- What one `_run_docker_command` call produced: the report text and the
argument vectors it launched as subprocesses. -/
structure DockerRun where
  text : List Char
  launched : List (List (List Char))
deriving DecidableEq

/-- The environment-validation failure message of `_run_docker_command`. -/
def envFailMsg : List Char :=
  chars "❌ Docker environment validation failed. Please ensure Docker is running and docker-compose.yml exists."

/-- `_run_docker_command`: validate the environment, build the argument
vector, run it, and format either the timeout message or the full report.
`startC`/`endC` are the wall-clock instants around the subprocess in
hundredths of a second; `timeoutS` is the bound in seconds (default 300 in
the source). -/
def runDockerCommand (validationOk : Bool) (command description : List Char)
    (timeoutS : Nat) (composeCommand : Bool) (result : ProcResult)
    (startC endC : Int) : DockerRun :=
  if validationOk then
    let cmd := buildCmd command composeCommand
    match result with
    | ProcResult.timeout =>
        ⟨chars "❌ Command timed out after " ++ natChars timeoutS
          ++ chars " seconds: " ++ joinWith [' '] cmd, [cmd]⟩
    | ProcResult.completed rc out err =>
        let executionTime := endC - startC
        let head : List (List Char) :=
          [chars "🚀 " ++ description,
           chars "📋 Command: " ++ joinWith [' '] cmd,
           chars "⏱️  Execution time: " ++ fmt2dp executionTime ++ chars "s",
           []]
        let body : List (List Char) :=
          if rc = 0 then
            chars "✅ Success!" ::
              (if out.isEmpty then []
               else [chars "📄 Output:", formatCommandOutput out])
          else
            (chars "❌ Failed with exit code " ++ intChars rc) ::
              ((if err.isEmpty then []
                else [chars "🔥 Error output:", formatErrorOutput err])
               ++ (if out.isEmpty then []
                   else [chars "📄 Standard output:", formatCommandOutput out]))
        ⟨joinLines (head ++ body), [cmd]⟩
  else ⟨envFailMsg, []⟩

/-- `_validate_docker_environment`: true only when `docker-compose.yml`
exists and the `docker ps` probe (None models an exception while launching
it) exits with code 0. -/
def validateDockerEnvironment (composeFileExists : Bool) (dockerPs : Option Int) : Bool :=
  if composeFileExists then
    match dockerPs with
    | none => false
    | some rc => rc = 0
  else false

/-- One workflow-run record from the `gh run list` JSON (fields after the
`.get(..., default)` lookups). -/
structure RunRecord where
  status : List Char
  conclusion : List Char
  workflowName : List Char
  headBranch : List Char
  createdAt : List Char
  url : List Char
  databaseId : List Char
deriving DecidableEq

/-- Result of the `gh run list` subprocess: spawn failure
(`FileNotFoundError`) or completion with an exit code, stderr text, and the
parsed run list. -/
inductive GhRunsResult
  | spawnFailed
  | completed (rc : Int) (stderr : List Char) (runs : List RunRecord)

/-- What `_check_workflow_runs` produced: the report text and whether the
`gh run list` query was issued. -/
structure ProbeOutput where
  text : List Char
  ranListQuery : Bool
deriving DecidableEq

/-- Status icon mapping of `_check_workflow_runs`. -/
def statusIcon (status conclusion : List Char) : List Char :=
  if status = chars "completed" then
    if conclusion = chars "success" then chars "✅"
    else if conclusion = chars "failure" then chars "❌"
    else if conclusion = chars "cancelled" then chars "🚫"
    else chars "⚠️"
  else if status = chars "in_progress" then chars "🔄"
  else if status = chars "queued" then chars "⏳"
  else chars "❓"

/-- The block of lines `_check_workflow_runs` renders for one run record. -/
def renderRun (r : RunRecord) : List (List Char) :=
  [statusIcon r.status r.conclusion ++ chars " **" ++ r.workflowName
     ++ chars "** (" ++ r.headBranch ++ chars ")",
   chars "   Status: " ++ r.status ++ chars " | Conclusion: " ++ r.conclusion,
   chars "   Created: " ++ (r.createdAt.take 19).map (fun c => if c = 'T' then ' ' else c),
   chars "   Run ID: " ++ r.databaseId]
  ++ (if r.url.isEmpty then [] else [chars "   URL: " ++ r.url])
  ++ [[]]

/-- The fixed header lines of `_check_workflow_runs`. -/
def wfHeader : List (List Char) :=
  [chars "🔍 GitHub Actions Workflow Status", List.replicate 40 '=', []]

/-- The empty-run-list message of `_check_workflow_runs`. -/
def noRunsMsg : List Char := chars "ℹ️  No workflow runs found"

/-- `_check_github_auth`: probe `gh --version` then `gh auth status`
(each `Option Int` exit code, `none` modelling an exception, whose message
text is `spawnErr`); returns the authenticated flag and the guidance
messages. -/
def checkGithubAuth (ghVersion ghAuthStatus : Option Int) (hasToken : Bool)
    (spawnErr : List Char) : Bool × List (List Char) :=
  match ghVersion with
  | none =>
      (false, [chars "❌ Error checking GitHub auth: " ++ spawnErr,
               chars "💡 Run: ./scripts/setup-github-auth.sh"])
  | some vrc =>
      if vrc = 0 then
        match ghAuthStatus with
        | none =>
            (false, [chars "❌ Error checking GitHub auth: " ++ spawnErr,
                     chars "💡 Run: ./scripts/setup-github-auth.sh"])
        | some arc =>
            if arc = 0 then (true, [chars "✅ GitHub CLI authenticated"])
            else
              (false,
               [chars "❌ GitHub CLI not authenticated", chars "🔧 Container setup:"]
               ++ (if hasToken then
                     [chars "  1. GITHUB_TOKEN found in environment",
                      chars "  2. Run: echo $GITHUB_TOKEN | gh auth login --with-token"]
                   else
                     [chars "  1. Set GITHUB_TOKEN environment variable",
                      chars "  2. Run: docker-compose up -d mcp-server",
                      chars "  3. Or run: ./scripts/setup-github-auth.sh"])
               ++ [[],
                   chars "🔑 Token requirements for private repos:",
                   chars "  - repo (full control of private repositories)",
                   chars "  - workflow (update GitHub Action workflows)",
                   chars "  - read:org (read org and team membership)"])
      else
        (false, [chars "❌ GitHub CLI not found",
                 chars "💡 Install GitHub CLI in container: included in Dockerfile",
                 chars "📚 Setup guide: ./scripts/setup-github-auth.sh"])

/-- `_check_workflow_runs`: header, auth gate, `gh run list` query, then the
no-runs / error / rendered-runs branches. -/
def checkWorkflowRuns (authenticated : Bool) (authMessages : List (List Char))
    (gh : GhRunsResult) : ProbeOutput :=
  if authenticated then
    match gh with
    | GhRunsResult.spawnFailed =>
        ⟨joinLines (wfHeader ++
          [chars "❌ GitHub CLI (gh) not found",
           chars "💡 Install GitHub CLI: https://cli.github.com/",
           [],
           chars "🔧 Alternative: Check workflows manually",
           chars "   Visit: https://github.com/your-repo/actions"]), true⟩
    | GhRunsResult.completed rc stderr runs =>
        if rc = 0 then
          if runs.isEmpty then ⟨joinLines (wfHeader ++ [noRunsMsg]), true⟩
          else
            ⟨joinLines (wfHeader ++
              [chars "📊 Latest " ++ natChars runs.length ++ chars " Workflow Runs:", []]
              ++ (runs.map renderRun).flatten), true⟩
        else
          if containsSub (chars "not found") stderr
              || containsSub (chars "No workflows found") stderr then
            ⟨joinLines (wfHeader ++
              [noRunsMsg,
               chars "💡 Check if this repository has GitHub Actions enabled"]), true⟩
          else
            ⟨joinLines (wfHeader ++
              [chars "❌ Error getting workflow runs: " ++ stderr]), true⟩
  else ⟨joinLines (wfHeader ++ authMessages), false⟩

/-! ### Helper lemmas -/

theorem splitLines_ne_nil (l : List Char) : splitLines l ≠ [] := by
  cases l with
  | nil => simp [splitLines]
  | cons c rest =>
    simp only [splitLines]
    by_cases h : c = '\n' <;> simp [h]

theorem joinLines_splitLines (l : List Char) : joinLines (splitLines l) = l := by
  induction l with
  | nil => rfl
  | cons c rest ih =>
    cases hr : splitLines rest with
    | nil => exact absurd hr (splitLines_ne_nil rest)
    | cons y ys =>
      rw [hr] at ih
      by_cases h : c = '\n'
      · subst h
        simp only [splitLines, if_pos rfl, hr]
        simp only [joinLines, joinWith] at ih ⊢
        simp [ih]
      · simp only [splitLines, if_neg h, hr]
        cases ys with
        | nil =>
          simp only [List.headI, List.tail_cons]
          simp only [joinLines, joinWith] at ih ⊢
          rw [ih]
        | cons z zs =>
          simp only [List.headI, List.tail_cons]
          simp only [joinLines, joinWith] at ih ⊢
          rw [← ih]
          simp

theorem no_newline_of_mem_splitLines :
    ∀ (t : List Char), ∀ l ∈ splitLines t, '\n' ∉ l := by
  intro t
  induction t with
  | nil =>
    intro l hl
    simp [splitLines] at hl
    simp [hl]
  | cons c rest ih =>
    intro l hl
    by_cases h : c = '\n'
    · subst h
      simp only [splitLines, if_pos rfl] at hl
      rcases List.mem_cons.mp hl with rfl | hl'
      · simp
      · exact ih l hl'
    · cases hr : splitLines rest with
      | nil => exact absurd hr (splitLines_ne_nil rest)
      | cons y ys =>
        simp only [splitLines, if_neg h, hr] at hl
        rcases List.mem_cons.mp hl with rfl | hl'
        · intro hmem
          rcases List.mem_cons.mp hmem with h1 | h2
          · exact h h1.symm
          · exact ih y (hr ▸ List.mem_cons_self y ys) h2
        · exact ih l (hr ▸ List.mem_cons_of_mem y hl')

theorem splitLines_of_no_newline :
    ∀ (x : List Char), '\n' ∉ x → splitLines x = [x] := by
  intro x
  induction x with
  | nil => intro; rfl
  | cons c t ih =>
    intro h
    have hc : ¬ c = '\n' := fun hcc => h (hcc ▸ List.mem_cons_self c t)
    have ht : '\n' ∉ t := fun hm => h (List.mem_cons_of_mem c hm)
    simp only [splitLines, if_neg hc, ih ht, List.headI, List.tail_cons]

theorem splitLines_append_newline :
    ∀ (x t : List Char), '\n' ∉ x → splitLines (x ++ '\n' :: t) = x :: splitLines t := by
  intro x
  induction x with
  | nil => intro t _; simp [splitLines]
  | cons c x' ih =>
    intro t h
    have hc : ¬ c = '\n' := fun hcc => h (hcc ▸ List.mem_cons_self c x')
    have hx : '\n' ∉ x' := fun hm => h (List.mem_cons_of_mem c hm)
    simp only [List.cons_append, splitLines, if_neg hc, List.append_eq, ih t hx,
      List.headI, List.tail_cons]

theorem splitLines_joinLines :
    ∀ (ls : List (List Char)), (∀ l ∈ ls, '\n' ∉ l) → ls ≠ [] →
      splitLines (joinLines ls) = ls := by
  intro ls
  induction ls with
  | nil => intro _ hne; exact absurd rfl hne
  | cons x xs ih =>
    intro h _
    cases xs with
    | nil =>
      simp only [joinLines, joinWith]
      exact splitLines_of_no_newline x (h x (List.mem_cons_self x []))
    | cons y ys =>
      have hx : '\n' ∉ x := h x (List.mem_cons_self x (y :: ys))
      have hrest : ∀ l ∈ y :: ys, '\n' ∉ l := fun l hl => h l (List.mem_cons_of_mem x hl)
      simp only [joinLines, joinWith]
      rw [show x ++ ['\n'] ++ joinWith ['\n'] (y :: ys)
            = x ++ '\n' :: joinWith ['\n'] (y :: ys) by simp]
      rw [splitLines_append_newline x _ hx]
      have := ih hrest (by simp)
      simp only [joinLines] at this
      rw [this]

theorem dropWhile_head_false {p : Char → Bool} {l : List Char} {a : Char} {t : List Char}
    (h : l.dropWhile p = a :: t) : p a = false := by
  have hw : (l.dropWhile p) ≠ [] := by simp [h]
  have := List.head_dropWhile_not p l hw
  rw [show (l.dropWhile p).head hw = a by simp [h]] at this
  exact this

theorem dropWhile_self (p : Char → Bool) (l : List Char) :
    (l.dropWhile p).dropWhile p = l.dropWhile p := by
  cases h : l.dropWhile p with
  | nil => simp
  | cons a t =>
    have ha : p a = false := dropWhile_head_false h
    exact List.dropWhile_cons_of_neg (by simp [ha])

theorem pyStrip_idem (l : List Char) : pyStrip (pyStrip l) = pyStrip l := by
  have hBpre : ((l.dropWhile isPyWs).reverse.dropWhile isPyWs).reverse <+: l.dropWhile isPyWs := by
    have hsuf : (l.dropWhile isPyWs).reverse.dropWhile isPyWs <:+ (l.dropWhile isPyWs).reverse :=
      List.dropWhile_suffix _
    have := List.reverse_prefix.mpr hsuf
    simpa using this
  have hstep1 : (pyStrip l).dropWhile isPyWs = pyStrip l := by
    cases hb : pyStrip l with
    | nil => simp
    | cons b t =>
      unfold pyStrip at hb
      obtain ⟨r, hr⟩ := hBpre
      rw [hb] at hr
      have hAeq : l.dropWhile isPyWs = b :: (t ++ r) := by
        rw [← hr]; simp
      have hbf : isPyWs b = false := dropWhile_head_false hAeq
      exact List.dropWhile_cons_of_neg (by simp [hbf])
  have hstep2 : (pyStrip l).reverse.dropWhile isPyWs = (pyStrip l).reverse := by
    unfold pyStrip
    rw [List.reverse_reverse]
    exact dropWhile_self ..
  show ((((pyStrip l).dropWhile isPyWs).reverse).dropWhile isPyWs).reverse = pyStrip l
  rw [hstep1, hstep2, List.reverse_reverse]

theorem filterMap_guard_eq_filter_map (p : List Char → Bool) (f : List Char → List Char) :
    ∀ (ls : List (List Char)),
      ls.filterMap (fun l => if p l then none else some (f l))
        = (ls.filter (fun l => !p l)).map f := by
  intro ls
  induction ls with
  | nil => rfl
  | cons a t ih => by_cases h : p a <;> simp [h, ih]

theorem mem_joinWith (c : Char) (sep : List Char) :
    ∀ (xs : List (List Char)), c ∈ joinWith sep xs → c ∈ sep ∨ ∃ x ∈ xs, c ∈ x := by
  intro xs
  induction xs with
  | nil => intro h; simp [joinWith] at h
  | cons x xs ih =>
    cases xs with
    | nil =>
      intro h
      right
      exact ⟨x, List.mem_cons_self x [], by simpa [joinWith] using h⟩
    | cons y ys =>
      intro h
      simp only [joinWith] at h
      rcases List.mem_append.mp h with h1 | h2
      · rcases List.mem_append.mp h1 with ha | hb
        · right; exact ⟨x, List.mem_cons_self x (y :: ys), ha⟩
        · left; exact hb
      · rcases ih h2 with hs | ⟨z, hz, hc⟩
        · left; exact hs
        · right; exact ⟨z, List.mem_cons_of_mem x hz, hc⟩

theorem mem_splitWordsAux {c : Char} :
    ∀ (l acc : List Char) (w : List Char),
      w ∈ splitWordsAux l acc → c ∈ w → c ∈ l ∨ c ∈ acc := by
  intro l
  induction l with
  | nil =>
    intro acc w hw hc
    by_cases h : acc.isEmpty
    · simp [splitWordsAux, h] at hw
    · simp only [splitWordsAux, if_neg h, List.mem_singleton] at hw
      subst hw
      right
      simpa using hc
  | cons d rest ih =>
    intro acc w hw hc
    simp only [splitWordsAux] at hw
    by_cases hd : isPyWs d
    · rw [if_pos hd] at hw
      by_cases ha : acc.isEmpty
      · rw [if_pos ha] at hw
        rcases ih [] w hw hc with h1 | h2
        · left; exact List.mem_cons_of_mem d h1
        · simp at h2
      · rw [if_neg ha] at hw
        rcases List.mem_cons.mp hw with rfl | hw'
        · right; simpa using hc
        · rcases ih [] w hw' hc with h1 | h2
          · left; exact List.mem_cons_of_mem d h1
          · simp at h2
    · rw [if_neg hd] at hw
      rcases ih (d :: acc) w hw hc with h1 | h2
      · left; exact List.mem_cons_of_mem d h1
      · rcases List.mem_cons.mp h2 with rfl | h3
        · left; exact List.mem_cons_self c rest
        · right; exact h3

theorem mem_splitWords {c : Char} {l w : List Char}
    (hw : w ∈ splitWords l) (hc : c ∈ w) : c ∈ l := by
  rcases mem_splitWordsAux l [] w hw hc with h1 | h2
  · exact h1
  · simp at h2

theorem digitChar_isDigit (d : Nat) (h : d < 10) : (Nat.digitChar d).isDigit = true := by
  interval_cases d <;> decide

theorem natCharsAux_isDigit :
    ∀ (fuel n : Nat), ∀ c ∈ natCharsAux fuel n, c.isDigit = true := by
  intro fuel
  induction fuel with
  | zero => intro n c hc; simp [natCharsAux] at hc
  | succ f ih =>
    intro n c hc
    simp only [natCharsAux] at hc
    by_cases h : n < 10
    · rw [if_pos h] at hc
      rw [List.mem_singleton] at hc
      subst hc
      exact digitChar_isDigit n h
    · rw [if_neg h] at hc
      rcases List.mem_append.mp hc with h1 | h2
      · exact ih _ c h1
      · rw [List.mem_singleton] at h2
        subst h2
        exact digitChar_isDigit _ (Nat.mod_lt _ (by norm_num))

theorem natChars_isDigit (n : Nat) : ∀ c ∈ natChars n, c.isDigit = true :=
  natCharsAux_isDigit (n + 1) n

/-! ### Claim theorems -/

/-- C2 (counterexample): the input line `"Build succeeded despite 1 error
warning"` is NOT tagged SUCCESS by the classifier — it contains the keyword
`warning` (and `error`), but `succeeded` does not contain the success keyword
`success`, so the line is tagged WARNING. -/
theorem classifier_example_line_warning :
    classifyLine (chars "Build succeeded despite 1 error warning") = Severity.warning
      ∧ containsSub (chars "error")
          (toLowerL (chars "Build succeeded despite 1 error warning")) = true
      ∧ Severity.warning ≠ Severity.success := by
  decide

/-- C2 (amended): every line containing the substring `success`
(case-insensitively) is tagged SUCCESS — in particular a line containing both
`error` and `success` — because the success keywords are checked first; but
the example line `"Build succeeded despite 1 error warning"` is tagged
WARNING, since `succeeded` does not contain the keyword `success` while the
line contains `warning`. -/
theorem classifier_success_priority :
    (∀ l : List Char, containsSub (chars "success") (toLowerL l) = true →
        classifyLine l = Severity.success)
      ∧ classifyLine (chars "Build succeeded despite 1 error warning")
          = Severity.warning := by
  constructor
  · intro l h
    unfold classifyLine
    have hany : ([chars "success", chars "passed", chars "complete"].any
        (fun w => containsSub w (toLowerL l))) = true := by
      simp only [List.any_cons]
      rw [h]
      simp
    rw [if_pos hany]
  · decide

/-- C2 (witness): a line containing both `error` and `success` is tagged
SUCCESS. -/
theorem classifier_success_priority_witness :
    classifyLine (chars "error handled with success") = Severity.success :=
  classifier_success_priority.1 (chars "error handled with success") (by decide)

/-- C3 (counterexample): in the lint example scenario the first stdout line
`"Checking... 0 warnings"` is NOT tagged PLAIN — `warnings` contains the
keyword `warning`, so it is tagged WARNING. -/
theorem lint_scenario_first_line_not_plain :
    classifyLine (chars "Checking... 0 warnings") = Severity.warning
      ∧ Severity.warning ≠ Severity.plain := by
  decide

set_option maxRecDepth 8192 in
/-- C3 (amended): for the lint scenario (exit code 0, stdout
`"Checking... 0 warnings\nAll checks passed"`, empty stderr) the report is
the success banner followed by the two output lines in original order, the
first tagged WARNING (`warnings` matches the keyword `warning`) and the
second tagged SUCCESS (matching `passed`), with no stderr section. -/
theorem lint_scenario_report :
    runDockerCommand true (chars "lint") (chars "Running C++ linting checks...") 300 false
        (ProcResult.completed 0 (chars "Checking... 0 warnings\nAll checks passed") []) 0 123
      = ⟨chars "🚀 Running C++ linting checks...\n📋 Command: docker-compose run --rm lint\n⏱️  Execution time: 1.23s\n\n✅ Success!\n📄 Output:\n🟡 Checking... 0 warnings\n✅ All checks passed",
         [[chars "docker-compose", chars "run", chars "--rm", chars "lint"]]⟩
      ∧ classifyLine (chars "Checking... 0 warnings") = Severity.warning
      ∧ classifyLine (chars "All checks passed") = Severity.success := by
  refine ⟨?_, by decide, by decide⟩
  decide

/-- C4 (counterexample): the classifier does not keep one classified line per
newline-separated segment of the raw input: on input `"a\n"` (two segments,
the second empty) it produces a single classified line, because the text is
stripped before splitting. -/
theorem classifier_drops_boundary_segment :
    ¬ ((classifyText (chars "a\n")).length = (splitLines (chars "a\n")).length) := by
  decide

/-- C4 (amended): the classifier first strips leading and trailing whitespace
from the text and then splits on newlines: the rendered output has exactly
one line per newline-separated segment of the STRIPPED input, in the same
order, interior empty segments included; leading and trailing
whitespace-only segments are removed by the strip. -/
theorem classifier_line_structure (t : List Char) :
    splitLines (formatCommandOutput t)
      = (splitLines (pyStrip t)).map (fun l => renderLine (classifyLine l) l) := by
  have hmap : (classifyText t).map (fun p => renderLine p.1 p.2)
      = (splitLines (pyStrip t)).map (fun l => renderLine (classifyLine l) l) := by
    unfold classifyText
    rw [List.map_map]
    rfl
  unfold formatCommandOutput
  rw [hmap]
  apply splitLines_joinLines
  · intro l hl
    rw [List.mem_map] at hl
    obtain ⟨seg, hseg, rfl⟩ := hl
    intro hmem
    unfold renderLine at hmem
    rcases List.mem_append.mp hmem with h1 | h2
    · cases hcl : classifyLine seg <;> rw [hcl] at h1 <;> simp [insertedIcon, chars] at h1
    · exact no_newline_of_mem_splitLines (pyStrip t) seg hseg h2
  · intro hnil
    exact splitLines_ne_nil (pyStrip t) (List.map_eq_nil_iff.mp hnil)

/-- C9: reclassifying the rendered stdout output after stripping the inserted
icon prefixes yields the same per-line tags as the original classification —
tags depend only on the keyword content of each line, not on prior
annotation. -/
theorem classifier_idempotent_on_stripped (text : List Char) :
    (classifyText (stripInsertedIcons (classifyText text))).map Prod.fst
      = (classifyText text).map Prod.fst := by
  have hstrip : stripInsertedIcons (classifyText text) = pyStrip text := by
    unfold stripInsertedIcons classifyText
    rw [List.map_map]
    have hfun : ((fun p : Severity × List Char =>
          (renderLine p.1 p.2).drop (insertedIcon p.1).length)
        ∘ fun l => (classifyLine l, l)) = id := by
      funext l
      show (renderLine (classifyLine l) l).drop (insertedIcon (classifyLine l)).length = l
      unfold renderLine
      exact List.drop_left _ _
    rw [hfun, List.map_id]
    exact joinLines_splitLines (pyStrip text)
  rw [hstrip]
  show (classifyText (pyStrip text)).map Prod.fst = _
  unfold classifyText
  rw [pyStrip_idem]

/-- C10 (counterexample): the error formatter does not emit the non-blank
lines of the raw input unchanged: on input `"  hello"` it emits
`"🔥 hello"`, the leading whitespace of the (single, non-blank) input line
having been removed by the initial strip. -/
theorem error_output_trims_edge_whitespace :
    ¬ (formatErrorOutput (chars "  hello")
        = joinLines (((splitLines (chars "  hello")).filter
            (fun l => !(pyStrip l).isEmpty)).map (fun l => chars "🔥 " ++ l))) := by
  decide

/-- C10 (amended): the error formatter emits exactly the non-blank lines of
the whitespace-STRIPPED input, in their original order, each prefixed with
the uniform `🔥 ` marker; blank and whitespace-only lines are dropped (and
the strip may remove leading/trailing whitespace of the first and last
lines). -/
theorem error_output_nonblank_lines (t : List Char) :
    formatErrorOutput t
      = joinLines (((splitLines (pyStrip t)).filter
          (fun l => !(pyStrip l).isEmpty)).map (fun l => chars "🔥 " ++ l)) := by
  unfold formatErrorOutput
  rw [filterMap_guard_eq_filter_map (fun l => (pyStrip l).isEmpty) (fun l => chars "🔥 " ++ l)]

/-- C1: when the subprocess exceeds the timeout, the report is the distinct
timeout message naming the configured bound and the executed argument vector;
it is independent of the measured wall-clock instants (the true elapsed time
is never reported); and it contains no classified-output, duration, or other
report-section character (witnessed through any character that is not a
digit, not a space, and occurs neither in the command nor in the fixed
message text — e.g. the `📄` output-section marker or the `⏱` duration
marker). -/
theorem timeout_outcome_report (command description : List Char) (timeoutS : Nat)
    (composeCommand : Bool) (s1 e1 s2 e2 : Int) (c : Char)
    (hd : c.isDigit = false) (hsp : c ≠ ' ') (hc : c ∉ command)
    (hf : c ∉ chars "❌ Command timed out after  seconds: docker-compose run --rm") :
    (runDockerCommand true command description timeoutS composeCommand
        ProcResult.timeout s1 e1).text
        = chars "❌ Command timed out after " ++ natChars timeoutS ++ chars " seconds: "
            ++ joinWith [' '] (buildCmd command composeCommand)
      ∧ runDockerCommand true command description timeoutS composeCommand
          ProcResult.timeout s1 e1
          = runDockerCommand true command description timeoutS composeCommand
              ProcResult.timeout s2 e2
      ∧ c ∉ (runDockerCommand true command description timeoutS composeCommand
          ProcResult.timeout s1 e1).text := by
  refine ⟨rfl, rfl, ?_⟩
  intro hmem
  have htext : (runDockerCommand true command description timeoutS composeCommand
      ProcResult.timeout s1 e1).text
      = chars "❌ Command timed out after " ++ (natChars timeoutS ++ (chars " seconds: "
          ++ joinWith [' '] (buildCmd command composeCommand))) := by
    simp [runDockerCommand]
  rw [htext] at hmem
  rcases List.mem_append.mp hmem with h1 | h23
  · have hsub : chars "❌ Command timed out after "
        ⊆ chars "❌ Command timed out after  seconds: docker-compose run --rm" := by decide
    exact hf (hsub h1)
  rcases List.mem_append.mp h23 with h2 | h34
  · exact absurd (natChars_isDigit timeoutS c h2) (by simp [hd])
  rcases List.mem_append.mp h34 with h3 | h4
  · have hsub : chars " seconds: "
        ⊆ chars "❌ Command timed out after  seconds: docker-compose run --rm" := by decide
    exact hf (hsub h3)
  rcases mem_joinWith c [' '] _ h4 with hsep | ⟨w, hw, hcw⟩
  · exact hsp (by simpa using hsep)
  unfold buildCmd at hw
  by_cases hcomp : composeCommand
  · rw [if_pos hcomp] at hw
    rcases List.mem_cons.mp hw with rfl | hw'
    · have hsub : chars "docker-compose"
          ⊆ chars "❌ Command timed out after  seconds: docker-compose run --rm" := by decide
      exact hf (hsub hcw)
    · exact hc (mem_splitWords hw' hcw)
  · rw [if_neg hcomp] at hw
    have hall : chars "docker-compose run --rm"
        ⊆ chars "❌ Command timed out after  seconds: docker-compose run --rm" := by decide
    rcases List.mem_cons.mp hw with rfl | hw'
    · exact hf (hall (by
        have : chars "docker-compose" ⊆ chars "docker-compose run --rm" := by decide
        exact this hcw))
    rcases List.mem_cons.mp hw' with rfl | hw''
    · exact hf (hall (by
        have : chars "run" ⊆ chars "docker-compose run --rm" := by decide
        exact this hcw))
    rcases List.mem_cons.mp hw'' with rfl | hw'''
    · exact hf (hall (by
        have : chars "--rm" ⊆ chars "docker-compose run --rm" := by decide
        exact this hcw))
    rcases List.mem_singleton.mp hw''' with rfl
    exact hc hcw

/-- C1 (witness): the lint operation timing out after the default 300-second
bound yields exactly the timeout message, and the `📄` output-section marker
does not occur in it. -/
theorem timeout_outcome_report_witness :
    (runDockerCommand true (chars "lint") (chars "Running C++ linting checks...") 300 false
        ProcResult.timeout 0 98765).text
        = chars "❌ Command timed out after " ++ natChars 300 ++ chars " seconds: "
            ++ joinWith [' '] (buildCmd (chars "lint") false)
      ∧ '📄' ∉ (runDockerCommand true (chars "lint") (chars "Running C++ linting checks...")
          300 false ProcResult.timeout 0 98765).text := by
  have h := timeout_outcome_report (chars "lint") (chars "Running C++ linting checks...")
    300 false 0 98765 0 123 '📄' (by decide) (by decide) (by decide) (by decide)
  exact ⟨h.1, h.2.2⟩

/-- C5: for a completed (non-timeout) execution with validation passed, the
launched argument vector is exactly the one shown in the report, and the
report is, in fixed order: title line, argument-vector line, duration line
(two decimal places), blank separator, then the success banner plus
classified stdout on exit code 0, otherwise the failure banner naming the
exit code, highlighted stderr, then classified stdout; the measured duration
is non-negative. -/
theorem completed_report_structure (command description out err : List Char) (rc : Int)
    (composeCommand : Bool) (startC endC : Int) (h : startC ≤ endC) :
    (runDockerCommand true command description 300 composeCommand
        (ProcResult.completed rc out err) startC endC).launched
        = [buildCmd command composeCommand]
      ∧ (runDockerCommand true command description 300 composeCommand
          (ProcResult.completed rc out err) startC endC).text
        = joinLines
            ([chars "🚀 " ++ description,
              chars "📋 Command: " ++ joinWith [' '] (buildCmd command composeCommand),
              chars "⏱️  Execution time: " ++ fmt2dp (endC - startC) ++ chars "s",
              []]
             ++ (if rc = 0 then
                   chars "✅ Success!" ::
                     (if out.isEmpty then []
                      else [chars "📄 Output:", formatCommandOutput out])
                 else
                   (chars "❌ Failed with exit code " ++ intChars rc) ::
                     ((if err.isEmpty then []
                       else [chars "🔥 Error output:", formatErrorOutput err])
                      ++ (if out.isEmpty then []
                          else [chars "📄 Standard output:", formatCommandOutput out]))))
      ∧ 0 ≤ endC - startC
      ∧ ∃ ip d1 d2, fmt2dp (endC - startC) = ip ++ ['.', d1, d2]
          ∧ d1.isDigit = true ∧ d2.isDigit = true := by
  refine ⟨rfl, rfl, Int.sub_nonneg.mpr h, ?_⟩
  have hnn : ¬ (endC - startC < 0) := not_lt.mpr (Int.sub_nonneg.mpr h)
  refine ⟨natChars ((endC - startC).toNat / 100),
          Nat.digitChar ((endC - startC).toNat / 10 % 10),
          Nat.digitChar ((endC - startC).toNat % 10), ?_, ?_, ?_⟩
  · unfold fmt2dp
    rw [if_neg hnn]
    rfl
  · exact digitChar_isDigit _ (Nat.mod_lt _ (by norm_num))
  · exact digitChar_isDigit _ (Nat.mod_lt _ (by norm_num))

/-- C5 (witness): a concrete successful lint run (123 hundredths of a
second) has non-negative duration and launches exactly the reported argument
vector. -/
theorem completed_report_structure_witness :
    0 ≤ (123 : Int) - 0
      ∧ (runDockerCommand true (chars "lint") (chars "Running C++ linting checks...") 300 false
          (ProcResult.completed 0 (chars "ok") []) 0 123).launched
        = [buildCmd (chars "lint") false] := by
  have h := completed_report_structure (chars "lint") (chars "Running C++ linting checks...")
    (chars "ok") [] 0 false 0 123 (by decide)
  exact ⟨h.2.2.1, h.1⟩

/-- C6: when environment validation fails, the operation's report is the
single environment-failure message — with no argument-vector line, no
duration line and no classified output section — and no subprocess for the
operation is launched. -/
theorem validation_failure_short_circuit (command description : List Char)
    (timeoutS : Nat) (composeCommand : Bool) (result : ProcResult) (startC endC : Int) :
    runDockerCommand false command description timeoutS composeCommand result startC endC
        = ⟨envFailMsg, []⟩
      ∧ containsSub (chars "📋 Command") envFailMsg = false
      ∧ '⏱' ∉ envFailMsg
      ∧ containsSub (chars "Execution time") envFailMsg = false
      ∧ containsSub (chars "📄") envFailMsg = false := by
  exact ⟨rfl, by decide, by decide, by decide, by decide⟩

/-- C7: the environment validator returns true iff `docker-compose.yml`
exists under the project root and the `docker ps` liveness probe exits with
code 0; every failure, including an exception while launching the probe
(`dockerPs = none`), yields false. -/
theorem validate_docker_environment_iff (composeFileExists : Bool) (dockerPs : Option Int) :
    validateDockerEnvironment composeFileExists dockerPs = true
      ↔ composeFileExists = true ∧ dockerPs = some 0 := by
  unfold validateDockerEnvironment
  cases composeFileExists with
  | false => simp
  | true =>
    cases dockerPs with
    | none => simp
    | some rc => simp [decide_eq_true_eq]

/-- C7 (witness): with the descriptor file present and the probe exiting 0,
validation succeeds. -/
theorem validate_docker_environment_iff_witness :
    validateDockerEnvironment true (some 0) = true :=
  (validate_docker_environment_iff true (some 0)).mpr ⟨rfl, rfl⟩

/-- C8: when `gh --version` fails, the auth check reports the CLI as absent
with actionable install guidance; whenever the auth gate reports
not-authenticated, the probe returns the header plus the guidance messages
and issues no run-list query; and when the run-list query succeeds with an
empty list, the probe returns the literal no-runs message, which is not an
empty report. -/
theorem workflow_probe_guidance_and_empty (arc : Option Int) (tok : Bool)
    (spawnErr : List Char) (authMsgs : List (List Char)) (gh : GhRunsResult)
    (stderr : List Char) :
    (checkGithubAuth (some 1) arc tok spawnErr).1 = false
      ∧ (checkGithubAuth (some 1) arc tok spawnErr).2
          = [chars "❌ GitHub CLI not found",
             chars "💡 Install GitHub CLI in container: included in Dockerfile",
             chars "📚 Setup guide: ./scripts/setup-github-auth.sh"]
      ∧ (checkWorkflowRuns false authMsgs gh).ranListQuery = false
      ∧ (checkWorkflowRuns false authMsgs gh).text = joinLines (wfHeader ++ authMsgs)
      ∧ (checkWorkflowRuns true authMsgs (GhRunsResult.completed 0 stderr [])).text
          = joinLines (wfHeader ++ [noRunsMsg])
      ∧ (checkWorkflowRuns true authMsgs (GhRunsResult.completed 0 stderr [])).text ≠ [] := by
  refine ⟨by simp [checkGithubAuth], by simp [checkGithubAuth], rfl, rfl, rfl, ?_⟩
  rw [show (checkWorkflowRuns true authMsgs (GhRunsResult.completed 0 stderr [])).text
      = joinLines (wfHeader ++ [noRunsMsg]) from rfl]
  decide
